import Mathlib

/-
Verification development for the community.libvirt `libvirt` inventory
plugin (plugins/inventory/libvirt.py).  The definitions below are a
shallow embedding of `InventoryModule.parse` and of the external
collaborators it drives (the libvirt connection and the ansible
inventory model, which the design document describes as external
collaborators with a fixed contract).  Theorems about the embedding
settle the documented properties of the plugin.
-/

set_option autoImplicit false

namespace LibvirtInv

/- ## Regular expressions

The plugin applies the configured `filter` option with Python's
`re.match`, which succeeds exactly when some prefix of the subject
string (starting at position 0) matches the pattern.  `re.search`, by
contrast, succeeds when the pattern matches starting at any position.
We embed the pattern language as classical regular expressions with
Brzozowski derivatives, and give both semantics so they can be
compared. -/

inductive Regex where
  | emp : Regex
  | eps : Regex
  | chr : Char → Regex
  | any : Regex
  | alt : Regex → Regex → Regex
  | cat : Regex → Regex → Regex
  | star : Regex → Regex
deriving DecidableEq, Repr

/-- Does the regular expression accept the empty string? -/
def nullable : Regex → Bool
  | .emp => false
  | .eps => true
  | .chr _ => false
  | .any => false
  | .alt r s => nullable r || nullable s
  | .cat r s => nullable r && nullable s
  | .star _ => true

/-- Brzozowski derivative of a regular expression by one character. -/
def deriv (r : Regex) (c : Char) : Regex :=
  match r with
  | .emp => .emp
  | .eps => .emp
  | .chr a => if a = c then .eps else .emp
  | .any => .eps
  | .alt r s => .alt (deriv r c) (deriv s c)
  | .cat r s =>
    if nullable r then .alt (.cat (deriv r c) s) (deriv s c)
    else .cat (deriv r c) s
  | .star r => .cat (deriv r c) (.star r)

/-- Truthiness of Python `re.match r s`: some prefix of `s`, starting at
position 0, is in the language of `r`. -/
def reMatch (r : Regex) : List Char → Bool
  | [] => nullable r
  | c :: s => nullable r || reMatch (deriv r c) s

/-- Truthiness of Python `re.search r s`: the pattern matches starting at
some (any) position of `s`. -/
def reSearch (r : Regex) : List Char → Bool
  | [] => nullable r
  | c :: s => reMatch r (c :: s) || reSearch r s

/-- The default value of the `filter` option, the regex `.*`. -/
def dotStar : Regex := .star .any

/- ## Data model -/

/-- One entry of an interface's `addrs` list, as returned by libvirt's
`interfaceAddresses`; only the `addr` field is consumed by the plugin. -/
structure Addr where
  addr : String
deriving DecidableEq, Repr

/-- Raw per-interface record from `interfaceAddresses`: `hwaddr` is always
present, the `addrs` key may be absent (`none`). -/
structure IfaceInfo where
  hwaddr : String
  addrs : Option (List Addr)
deriving DecidableEq, Repr

/-- Normalized per-interface fact written into `ansible_libvirt_ifaces`:
`addrs` defaults to the empty list when absent from the raw record. -/
structure IfaceFact where
  hwaddr : String
  addrs : List Addr
deriving DecidableEq, Repr

/-- One libvirt domain as seen by the discovery pass.  `ifacesResult` is
the outcome of `connection.lookupByName(name).interfaceAddresses(...)`
for this domain: the raw interface map (an ordered association list,
keys distinct since it comes from a dict), or a lookup error when the
domain vanished between listing and querying. -/
structure Domain where
  name : String
  uuid : String
  ifacesResult : Except Unit (List (String × IfaceInfo))
deriving Repr

/-- The `inventory_hostname` option: its `choices` are `name` and `uuid`. -/
inductive NamingPolicy where
  | byName : NamingPolicy
  | byUUID : NamingPolicy
deriving DecidableEq, Repr

/-- A value stored in a host's variable map: the plugin writes strings
(`ansible_host`, `ansible_connection`, `ansible_libvirt_uri`) and one
interface-fact map (`ansible_libvirt_ifaces`). -/
inductive Value where
  | str : String → Value
  | ifaceMap : List (String × IfaceFact) → Value
deriving DecidableEq, Repr

/-- The inventory model the plugin writes into (external collaborator):
hosts keyed by name with an ordered variable map, groups keyed by name
with a member list. -/
structure Inventory where
  hosts : List (String × List (String × Value))
  groups : List (String × List String)
deriving DecidableEq, Repr

def Inventory.empty : Inventory := ⟨[], []⟩

/-- Dict lookup in an ordered association list of variables. -/
def lookupVar : List (String × Value) → String → Option Value
  | [], _ => none
  | e :: rest, k => if e.1 = k then some e.2 else lookupVar rest k

/-- Dict lookup of a host's variable map in the host list. -/
def lookupHost : List (String × List (String × Value)) → String → Option (List (String × Value))
  | [], _ => none
  | e :: rest, h => if e.1 = h then some e.2 else lookupHost rest h

/-- Dict lookup of a group's member list in the group list. -/
def lookupGroup : List (String × List String) → String → Option (List String)
  | [], _ => none
  | e :: rest, g => if e.1 = g then some e.2 else lookupGroup rest g

/-- Dict-style update of a variable map: overwrite the existing binding
for the key, else append a new one (Python `vars[k] = v`). -/
def setVar : List (String × Value) → String → Value → List (String × Value)
  | [], k, v => [(k, v)]
  | e :: rest, k, v =>
    if e.1 = k then (k, v) :: rest else e :: setVar rest k v

/-- `inventory.add_host`: create the host if absent, else leave it. -/
def addHost (inv : Inventory) (h : String) : Inventory :=
  if (lookupHost inv.hosts h).isSome then inv
  else { inv with hosts := inv.hosts ++ [(h, [])] }

/-- `inventory.add_group`: create the group if absent, else leave it. -/
def addGroup (inv : Inventory) (g : String) : Inventory :=
  if (lookupGroup inv.groups g).isSome then inv
  else { inv with groups := inv.groups ++ [(g, [])] }

def addMember : List (String × List String) → String → String → List (String × List String)
  | [], _, _ => []
  | e :: rest, g, h =>
    if e.1 = g then (e.1, if h ∈ e.2 then e.2 else e.2 ++ [h]) :: rest
    else e :: addMember rest g h

/-- `inventory.add_child group host`: add the host to the group's members. -/
def addChild (inv : Inventory) (g h : String) : Inventory :=
  { inv with groups := addMember inv.groups g h }

def setHostVar : List (String × List (String × Value)) → String → String → Value →
    List (String × List (String × Value))
  | [], _, _, _ => []
  | e :: rest, h, k, v =>
    if e.1 = h then (e.1, setVar e.2 k v) :: rest else e :: setHostVar rest h k v

/-- `inventory.set_variable host key value`. -/
def setVariable (inv : Inventory) (h k : String) (v : Value) : Inventory :=
  { inv with hosts := setHostVar inv.hosts h k v }

/-- Is the host present in the inventory? -/
def invHasHost (inv : Inventory) (h : String) : Bool :=
  (lookupHost inv.hosts h).isSome

/-- The variable map of a host, `inventory.hosts[h].get_vars()`. -/
def getVars (inv : Inventory) (h : String) : List (String × Value) :=
  (lookupHost inv.hosts h).getD []

/-- The value of one host variable, when bound. -/
def getVar (inv : Inventory) (h k : String) : Option Value :=
  lookupVar (getVars inv h) k

/-- `key in host.get_vars()`. -/
def hasVar (inv : Inventory) (h k : String) : Bool :=
  (getVar inv h k).isSome

/-- The member list of a group, when the group exists. -/
def groupMembers (inv : Inventory) (g : String) : Option (List String) :=
  lookupGroup inv.groups g

/- ## Translation of InventoryModule.parse -/

/-- `libvirt.py` lines 127-133: the primary key,
`dict({'uuid': server.UUIDString(), 'name': server.name()}).get(inventory_hostname)`. -/
def inventory_hostname (policy : NamingPolicy) (d : Domain) : String :=
  match policy with
  | .byUUID => d.uuid
  | .byName => d.name

/-- `libvirt.py` lines 134-139: the alias key,
`dict({'name': server.UUIDString(), 'uuid': server.name()}).get(inventory_hostname)`. -/
def inventory_hostname_alias (policy : NamingPolicy) (d : Domain) : String :=
  match policy with
  | .byName => d.uuid
  | .byUUID => d.name

/-- `libvirt.py` lines 119-124: the domain filter.  The code computes
`re.match(_filter, uuid)` and `re.match(_filter, name)` and selects one
of the two by the `inventory_hostname` option; the domain is skipped
when the selected match is falsy. -/
def domainMatchesFilter (policy : NamingPolicy) (pat : Regex) (d : Domain) : Bool :=
  match policy with
  | .byUUID => reMatch pat d.uuid.data
  | .byName => reMatch pat d.name.data

/-- `libvirt.py` lines 110-113: the driver-kind to connection-plugin
mapping, `dict({'LXC': ..., 'QEMU': ...}).get(connection.getType())`. -/
def connectionPluginMap (t : String) : Option String :=
  if t = "LXC" then some "community.libvirt.libvirt_lxc"
  else if t = "QEMU" then some "community.libvirt.libvirt_qemu"
  else none

/-- One iteration of the interface loop, `libvirt.py` lines 151-170: write
the normalized fact for this interface (raw `addrs` copied verbatim when
the key is present, `[]` otherwise) and, when the connection plugin is
not used, the interface has at least one address and `ansible_host` is
not yet among the host's variables, set `ansible_host` to the first
address. -/
def ifaceStep (useCP : Bool) (hn : String)
    (acc : List (String × IfaceFact) × Inventory) (e : String × IfaceInfo) :
    List (String × IfaceFact) × Inventory :=
  match e.2.addrs with
  | none => (acc.1 ++ [(e.1, ⟨e.2.hwaddr, []⟩)], acc.2)
  | some addrs =>
    let facts := acc.1 ++ [(e.1, ⟨e.2.hwaddr, addrs⟩)]
    match addrs with
    | [] => (facts, acc.2)
    | a :: _ =>
      if !useCP && !hasVar acc.2 hn "ansible_host" then
        (facts, setVariable acc.2 hn "ansible_host" (.str a.addr))
      else (facts, acc.2)

/-- The whole interface loop of `libvirt.py` lines 148-170, started from
`ifaces = {}` and the current inventory. -/
def ifaceLoop (useCP : Bool) (hn : String) (raw : List (String × IfaceInfo))
    (inv : Inventory) : List (String × IfaceFact) × Inventory :=
  raw.foldl (ifaceStep useCP hn) ([], inv)

/-- Pass-level errors.  `configError` is the `hypervisor uri not given`
abort, `connError` the `hypervisor connection failure` abort,
`lookupError` a libvirt lookup failure propagating out of
`connection.lookupByName` (the code does not catch it), and `nameError`
a Python `NameError` from reading the local `connection_plugin` when it
was never assigned. -/
inductive ParseErr where
  | configError : ParseErr
  | connError : ParseErr
  | lookupError : ParseErr
  | nameError : ParseErr
deriving DecidableEq, Repr

/-- The body of the `for server in connection.listAllDomains()` loop,
`libvirt.py` lines 118-188 (the trailing delegations to the external
compose/groups/keyed-groups collaborators, out of scope per the design
document, are elided — they are identity when those options are empty).
`cp` is the state of the local `connection_plugin` binding: `none` when
it was never assigned, `some v` when it holds `v`. -/
def processDomain (policy : NamingPolicy) (pat : Regex) (useCP : Bool)
    (uri : String) (cp : Option (Option String)) (inv : Inventory) (d : Domain) :
    Except ParseErr Inventory :=
  if domainMatchesFilter policy pat d then
    let hn := inventory_hostname policy d
    let al := inventory_hostname_alias policy d
    let inv1 := addChild (addGroup (addHost inv hn) al) al hn
    match d.ifacesResult with
    | .error _ => .error .lookupError
    | .ok raw =>
      let res := ifaceLoop useCP hn raw inv1
      if useCP then
        match cp with
        | none => .error .nameError
        | some none => .ok (setVariable res.2 hn "ansible_libvirt_ifaces" (.ifaceMap res.1))
        | some (some pl) =>
          let inv3 := setVariable
            (setVariable res.2 hn "ansible_libvirt_uri" (.str uri))
            hn "ansible_connection" (.str pl)
          .ok (setVariable inv3 hn "ansible_libvirt_ifaces" (.ifaceMap res.1))
      else .ok (setVariable res.2 hn "ansible_libvirt_ifaces" (.ifaceMap res.1))
  else .ok inv

/-- An open libvirt connection: its driver kind (`connection.getType()`)
and the domain list (`connection.listAllDomains()`). -/
structure Connection where
  driverType : String
  domains : List Domain
deriving Repr

/-- The options the pass reads: `uri` (`none` when the option is
missing), `inventory_hostname`, `use_connection_plugin`, `filter`. -/
structure Config where
  uri : Option String
  inventoryHostname : NamingPolicy
  useConnectionPlugin : Bool
  filter : Regex
deriving Repr

/-- `InventoryModule.parse`, `libvirt.py` lines 97-188: check the uri
option (`if not uri` — absent or empty aborts), open the connection
(`conn` is `libvirt.open`'s result, `none` for a null handle — `if not
connection` aborts), assign the local `connection_plugin` only when
`use_connection_plugin` is set, then process every listed domain in
order against a fresh inventory. -/
def parse (cfg : Config) (conn : Option Connection) : Except ParseErr Inventory :=
  match cfg.uri with
  | none => .error .configError
  | some u =>
    if u = "" then .error .configError
    else
      match conn with
      | none => .error .connError
      | some c =>
        let cp : Option (Option String) :=
          if cfg.useConnectionPlugin then some (connectionPluginMap c.driverType)
          else none
        c.domains.foldlM
          (processDomain cfg.inventoryHostname cfg.filter cfg.useConnectionPlugin u cp)
          Inventory.empty

/- ## Spec-side definitions (section 4.4 of the design document) -/

/-- Modelled from the spec: `extract` of InterfaceFactExtractor, first
component — every raw interface becomes `{hwaddr, addrs}` with `addrs`
the raw sequence copied verbatim when present and `[]` otherwise. -/
def extractIfaceFacts (raw : List (String × IfaceInfo)) : List (String × IfaceFact) :=
  raw.map (fun e => (e.1, ⟨e.2.hwaddr, e.2.addrs.getD []⟩))

/-- Modelled from the spec: `primaryAddress` — the `addr` of the first
entry of the first interface, in the raw map's order, that has at least
one address. -/
def primaryAddress : List (String × IfaceInfo) → Option String
  | [] => none
  | e :: rest =>
    match e.2.addrs with
    | some (a :: _) => some a.addr
    | _ => primaryAddress rest

/- ## Lemmas about the inventory operations -/

theorem lookupVar_setVar_self (l : List (String × Value)) (k : String) (v : Value) :
    lookupVar (setVar l k v) k = some v := by
  induction l with
  | nil => simp [setVar, lookupVar]
  | cons e rest ih =>
    by_cases h : e.1 = k
    · simp [setVar, h, lookupVar]
    · simp [setVar, h, lookupVar, ih]

theorem lookupVar_setVar_ne (l : List (String × Value)) (k k' : String) (v : Value)
    (hne : k' ≠ k) :
    lookupVar (setVar l k v) k' = lookupVar l k' := by
  have hks : ¬ (k = k') := fun hh => hne hh.symm
  induction l with
  | nil => simp [setVar, lookupVar, hks]
  | cons e rest ih =>
    by_cases h : e.1 = k
    · have h2 : ¬ (e.1 = k') := by rw [h]; exact hks
      simp [setVar, h, lookupVar, hks, h2]
    · by_cases h' : e.1 = k'
      · simp [setVar, h, lookupVar, h', hne]
      · simp [setVar, h, lookupVar, h', ih]

theorem lookupHost_setHostVar_self (hs : List (String × List (String × Value)))
    (h k : String) (v : Value) :
    lookupHost (setHostVar hs h k v) h
      = (lookupHost hs h).map (fun l => setVar l k v) := by
  induction hs with
  | nil => simp [setHostVar, lookupHost]
  | cons e rest ih =>
    by_cases hh : e.1 = h
    · simp [setHostVar, hh, lookupHost]
    · simp [setHostVar, hh, lookupHost, ih]

theorem lookupHost_setHostVar_ne (hs : List (String × List (String × Value)))
    (h k : String) (v : Value) (h' : String) (hne : h' ≠ h) :
    lookupHost (setHostVar hs h k v) h' = lookupHost hs h' := by
  have hhs : ¬ (h = h') := fun hh => hne hh.symm
  induction hs with
  | nil => simp [setHostVar, lookupHost]
  | cons e rest ih =>
    by_cases hh : e.1 = h
    · have h2 : ¬ (e.1 = h') := by rw [hh]; exact hhs
      simp [setHostVar, hh, lookupHost, hhs, h2]
    · by_cases hh' : e.1 = h'
      · simp [setHostVar, hh, lookupHost, hh', hne]
      · simp [setHostVar, hh, lookupHost, hh', ih]

theorem invHasHost_setVariable (inv : Inventory) (h k : String) (v : Value) (h' : String) :
    invHasHost (setVariable inv h k v) h' = invHasHost inv h' := by
  by_cases hne : h' = h
  · subst hne
    simp [invHasHost, setVariable, lookupHost_setHostVar_self]
  · simp [invHasHost, setVariable, lookupHost_setHostVar_ne _ _ _ _ _ hne]

theorem getVar_setVariable_self (inv : Inventory) (h k : String) (v : Value)
    (hhost : invHasHost inv h = true) :
    getVar (setVariable inv h k v) h k = some v := by
  unfold invHasHost at hhost
  unfold getVar getVars setVariable
  rw [lookupHost_setHostVar_self]
  match hl : lookupHost inv.hosts h with
  | none => rw [hl] at hhost; simp at hhost
  | some l => simp [lookupVar_setVar_self]

theorem getVar_setVariable_ne_key (inv : Inventory) (h' h k k' : String) (v : Value)
    (hne : k' ≠ k) :
    getVar (setVariable inv h k v) h' k' = getVar inv h' k' := by
  by_cases hh : h' = h
  · subst hh
    unfold getVar getVars setVariable
    rw [lookupHost_setHostVar_self]
    match hl : lookupHost inv.hosts h' with
    | none => simp
    | some l => simp [lookupVar_setVar_ne _ _ _ _ hne]
  · unfold getVar getVars setVariable
    rw [lookupHost_setHostVar_ne _ _ _ _ _ hh]

theorem getVar_setVariable_ne_host (inv : Inventory) (h' h k k' : String) (v : Value)
    (hne : h' ≠ h) :
    getVar (setVariable inv h k v) h' k' = getVar inv h' k' := by
  unfold getVar getVars setVariable
  rw [lookupHost_setHostVar_ne _ _ _ _ _ hne]

theorem groups_setVariable (inv : Inventory) (h k : String) (v : Value) :
    (setVariable inv h k v).groups = inv.groups := rfl

theorem lookupHost_append_absent (hs : List (String × List (String × Value)))
    (h : String) (l : List (String × Value)) (h' : String) :
    lookupHost (hs ++ [(h, l)]) h'
      = match lookupHost hs h' with
        | some r => some r
        | none => if h = h' then some l else none := by
  induction hs with
  | nil => simp [lookupHost]
  | cons e rest ih =>
    by_cases hh : e.1 = h'
    · simp [lookupHost, hh]
    · simp [lookupHost, hh, ih]

theorem getVar_addHost (inv : Inventory) (h h' k : String) :
    getVar (addHost inv h) h' k = getVar inv h' k := by
  unfold addHost
  by_cases hp : (lookupHost inv.hosts h).isSome
  · simp [hp]
  · simp only [hp, if_false, Bool.false_eq_true, reduceIte]
    unfold getVar getVars
    rw [lookupHost_append_absent]
    match hl : lookupHost inv.hosts h' with
    | some r => simp
    | none =>
      by_cases hh : h = h'
      · subst hh
        rw [hl] at hp
        simp [lookupVar]
      · simp [hh]

theorem invHasHost_addHost_self (inv : Inventory) (h : String) :
    invHasHost (addHost inv h) h = true := by
  unfold addHost invHasHost
  by_cases hp : (lookupHost inv.hosts h).isSome
  · simp [hp]
  · simp only [hp, if_false, Bool.false_eq_true, reduceIte]
    rw [lookupHost_append_absent]
    match hl : lookupHost inv.hosts h with
    | some r => simp
    | none => simp

theorem invHasHost_addHost_mono (inv : Inventory) (h h' : String)
    (hhost : invHasHost inv h' = true) :
    invHasHost (addHost inv h) h' = true := by
  unfold addHost
  by_cases hp : (lookupHost inv.hosts h).isSome
  · simpa [hp]
  · simp only [hp, if_false, Bool.false_eq_true, reduceIte]
    unfold invHasHost at hhost ⊢
    rw [lookupHost_append_absent]
    match hl : lookupHost inv.hosts h' with
    | some r => simp
    | none => rw [hl] at hhost; simp at hhost

theorem groups_addHost (inv : Inventory) (h : String) :
    (addHost inv h).groups = inv.groups := by
  unfold addHost
  by_cases hp : (lookupHost inv.hosts h).isSome
  · simp [hp]
  · simp [hp]

theorem hosts_addGroup (inv : Inventory) (g : String) :
    (addGroup inv g).hosts = inv.hosts := by
  unfold addGroup
  by_cases hp : (lookupGroup inv.groups g).isSome
  · simp [hp]
  · simp [hp]

theorem hosts_addChild (inv : Inventory) (g h : String) :
    (addChild inv g h).hosts = inv.hosts := rfl

theorem getVar_addGroup (inv : Inventory) (g h k : String) :
    getVar (addGroup inv g) h k = getVar inv h k := by
  unfold getVar getVars
  rw [hosts_addGroup]

theorem getVar_addChild (inv : Inventory) (g h' h k : String) :
    getVar (addChild inv g h') h k = getVar inv h k := rfl

theorem invHasHost_addGroup (inv : Inventory) (g h : String) :
    invHasHost (addGroup inv g) h = invHasHost inv h := by
  unfold invHasHost
  rw [hosts_addGroup]

theorem invHasHost_addChild (inv : Inventory) (g h' h : String) :
    invHasHost (addChild inv g h') h = invHasHost inv h := rfl

/- ## Lemmas about the interface loop -/

theorem ifaceStep_fst (useCP : Bool) (hn : String)
    (acc : List (String × IfaceFact) × Inventory) (e : String × IfaceInfo) :
    (ifaceStep useCP hn acc e).1 = acc.1 ++ [(e.1, ⟨e.2.hwaddr, e.2.addrs.getD []⟩)] := by
  cases he : e.2.addrs with
  | none => simp [ifaceStep, he]
  | some addrs =>
    cases addrs with
    | nil => simp [ifaceStep, he]
    | cons a as =>
      by_cases hc : (!useCP && !hasVar acc.2 hn "ansible_host") = true
      · simp [ifaceStep, he, hc]
      · simp [ifaceStep, he, hc]

theorem ifaceStep_snd_cases (useCP : Bool) (hn : String)
    (acc : List (String × IfaceFact) × Inventory) (e : String × IfaceInfo) :
    (ifaceStep useCP hn acc e).2 = acc.2
    ∨ (useCP = false ∧ ∃ v, (ifaceStep useCP hn acc e).2
        = setVariable acc.2 hn "ansible_host" (.str v)) := by
  cases he : e.2.addrs with
  | none => left; simp [ifaceStep, he]
  | some addrs =>
    cases addrs with
    | nil => left; simp [ifaceStep, he]
    | cons a as =>
      by_cases hc : (!useCP && !hasVar acc.2 hn "ansible_host") = true
      · right
        constructor
        · cases useCP with
          | false => rfl
          | true => simp at hc
        · exact ⟨a.addr, by simp [ifaceStep, he, hc]⟩
      · left; simp [ifaceStep, he, hc]

theorem foldl_ifaceStep_fst (useCP : Bool) (hn : String) (raw : List (String × IfaceInfo)) :
    ∀ acc : List (String × IfaceFact) × Inventory,
    (raw.foldl (ifaceStep useCP hn) acc).1 = acc.1 ++ extractIfaceFacts raw := by
  induction raw with
  | nil => intro acc; simp [extractIfaceFacts]
  | cons e rest ih =>
    intro acc
    rw [List.foldl_cons, ih, ifaceStep_fst]
    simp [extractIfaceFacts]

theorem iface_loop_facts (useCP : Bool) (hn : String) (raw : List (String × IfaceInfo))
    (inv : Inventory) :
    (ifaceLoop useCP hn raw inv).1 = extractIfaceFacts raw := by
  unfold ifaceLoop
  rw [foldl_ifaceStep_fst]
  rfl

theorem foldl_ifaceStep_invHasHost (useCP : Bool) (hn : String)
    (raw : List (String × IfaceInfo)) (h' : String) :
    ∀ acc : List (String × IfaceFact) × Inventory,
    invHasHost (raw.foldl (ifaceStep useCP hn) acc).2 h' = invHasHost acc.2 h' := by
  induction raw with
  | nil => intro acc; rfl
  | cons e rest ih =>
    intro acc
    rw [List.foldl_cons, ih]
    rcases ifaceStep_snd_cases useCP hn acc e with hcase | ⟨hf, v, hcase⟩
    · rw [hcase]
    · rw [hcase, invHasHost_setVariable]

theorem foldl_ifaceStep_groups (useCP : Bool) (hn : String)
    (raw : List (String × IfaceInfo)) :
    ∀ acc : List (String × IfaceFact) × Inventory,
    (raw.foldl (ifaceStep useCP hn) acc).2.groups = acc.2.groups := by
  induction raw with
  | nil => intro acc; rfl
  | cons e rest ih =>
    intro acc
    rw [List.foldl_cons, ih]
    rcases ifaceStep_snd_cases useCP hn acc e with hcase | ⟨hf, v, hcase⟩
    · rw [hcase]
    · rw [hcase, groups_setVariable]

theorem foldl_ifaceStep_getVar_ne (useCP : Bool) (hn : String)
    (raw : List (String × IfaceInfo)) (h k : String) (hk : k ≠ "ansible_host") :
    ∀ acc : List (String × IfaceFact) × Inventory,
    getVar (raw.foldl (ifaceStep useCP hn) acc).2 h k = getVar acc.2 h k := by
  induction raw with
  | nil => intro acc; rfl
  | cons e rest ih =>
    intro acc
    rw [List.foldl_cons, ih]
    rcases ifaceStep_snd_cases useCP hn acc e with hcase | ⟨hf, v, hcase⟩
    · rw [hcase]
    · rw [hcase, getVar_setVariable_ne_key _ _ _ _ _ _ hk]

theorem foldl_ifaceStep_true_snd (hn : String) (raw : List (String × IfaceInfo)) :
    ∀ acc : List (String × IfaceFact) × Inventory,
    (raw.foldl (ifaceStep true hn) acc).2 = acc.2 := by
  induction raw with
  | nil => intro acc; rfl
  | cons e rest ih =>
    intro acc
    rw [List.foldl_cons, ih]
    cases he : e.2.addrs with
    | none => simp [ifaceStep, he]
    | some addrs =>
      cases addrs with
      | nil => simp [ifaceStep, he]
      | cons a as => simp [ifaceStep, he]

theorem ansible_host_after_loop (hn : String) (raw : List (String × IfaceInfo)) :
    ∀ (fs : List (String × IfaceFact)) (inv : Inventory), invHasHost inv hn = true →
    getVar (raw.foldl (ifaceStep false hn) (fs, inv)).2 hn "ansible_host"
      = match getVar inv hn "ansible_host" with
        | some v => some v
        | none => Option.map Value.str (primaryAddress raw) := by
  induction raw with
  | nil =>
    intro fs inv hhost
    simp only [List.foldl_nil, primaryAddress, Option.map_none]
    cases getVar inv hn "ansible_host" <;> rfl
  | cons e rest ih =>
    intro fs inv hhost
    rw [List.foldl_cons]
    cases he : e.2.addrs with
    | none =>
      have hstep : ifaceStep false hn (fs, inv) e = (fs ++ [(e.1, ⟨e.2.hwaddr, []⟩)], inv) := by
        simp [ifaceStep, he]
      rw [hstep, ih _ _ hhost]
      have hp : primaryAddress (e :: rest) = primaryAddress rest := by
        simp [primaryAddress, he]
      rw [hp]
    | some addrs =>
      cases addrs with
      | nil =>
        have hstep : ifaceStep false hn (fs, inv) e
            = (fs ++ [(e.1, ⟨e.2.hwaddr, []⟩)], inv) := by
          simp [ifaceStep, he]
        rw [hstep, ih _ _ hhost]
        have hp : primaryAddress (e :: rest) = primaryAddress rest := by
          simp [primaryAddress, he]
        rw [hp]
      | cons a as =>
        have hp : primaryAddress (e :: rest) = some a.addr := by
          simp [primaryAddress, he]
        by_cases hv : hasVar inv hn "ansible_host" = true
        · have hstep : ifaceStep false hn (fs, inv) e
              = (fs ++ [(e.1, ⟨e.2.hwaddr, a :: as⟩)], inv) := by
            simp [ifaceStep, he, hv]
          rw [hstep, ih _ _ hhost, hp]
          unfold hasVar at hv
          match hg : getVar inv hn "ansible_host" with
          | some v => rfl
          | none => rw [hg] at hv; simp at hv
        · have hv' : getVar inv hn "ansible_host" = none := by
            unfold hasVar at hv
            exact Option.not_isSome_iff_eq_none.mp (fun hh => hv hh)
          have hstep : ifaceStep false hn (fs, inv) e
              = (fs ++ [(e.1, ⟨e.2.hwaddr, a :: as⟩)],
                 setVariable inv hn "ansible_host" (.str a.addr)) := by
            simp [ifaceStep, he, hasVar, hv']
          rw [hstep, ih _ _ (by rw [invHasHost_setVariable]; exact hhost), hp, hv']
          rw [getVar_setVariable_self _ _ _ _ hhost]
          rfl

/- ## Claim C1 -/

/-- C1: identity resolution is a total pure function of the domain record
and the naming policy: under the `name` policy the primary key is the
domain's name and the alias key its uuid; under the `uuid` policy the
primary key is the uuid and the alias key the name. -/
theorem identity_resolution_spec (d : Domain) :
    (inventory_hostname .byName d, inventory_hostname_alias .byName d) = (d.name, d.uuid)
    ∧ (inventory_hostname .byUUID d, inventory_hostname_alias .byUUID d) = (d.uuid, d.name) :=
  ⟨rfl, rfl⟩

/- ## Claim C2 -/

theorem reMatch_dotStar (l : List Char) : reMatch dotStar l = true := by
  cases l with
  | nil => rfl
  | cons c s => rfl

/-- A domain whose name is "ab": the pattern `b` matches inside the name
but not at its start. -/
def filterCexDomain : Domain := ⟨"ab", "u-cex", .ok []⟩

/-- C2 counterexample: the claim says the filter accepts a domain iff the
pattern matches ANYWHERE in the selected field (search semantics, not
prefix-anchored).  The code uses `re.match`, which anchors at position 0:
under the `name` policy, pattern `b` against name "ab" is rejected by the
code although the pattern matches anywhere (search) in the field. -/
theorem filter_search_semantics_cex :
    domainMatchesFilter .byName (.chr 'b') filterCexDomain = false
    ∧ reSearch (.chr 'b') filterCexDomain.name.data = true :=
  ⟨by decide, by decide⟩

/-- C2 (amended): for every domain and pattern the filter tests the field
selected by the naming policy (uuid under the `uuid` policy, name under
the `name` policy) and accepts the domain iff the pattern matches a
prefix of the field value starting at position 0 (Python `re.match`
semantics, not search); the default pattern `.*` accepts every domain. -/
theorem filter_match_at_start :
    (∀ (pat : Regex) (d : Domain),
      domainMatchesFilter .byUUID pat d = reMatch pat d.uuid.data
      ∧ domainMatchesFilter .byName pat d = reMatch pat d.name.data)
    ∧ ∀ (policy : NamingPolicy) (d : Domain),
        domainMatchesFilter policy dotStar d = true := by
  constructor
  · intro pat d
    exact ⟨rfl, rfl⟩
  · intro policy d
    cases policy with
    | byName => exact reMatch_dotStar _
    | byUUID => exact reMatch_dotStar _

/- ## Claim C3 -/

/-- A domain that vanished between listing and fact lookup: its
`lookupByName` raises. -/
def vanishedDomain : Domain := ⟨"gone", "uuid-gone", .error ()⟩

/-- A healthy domain listed after the vanished one. -/
def survivorDomain : Domain := ⟨"live", "uuid-live", .ok []⟩

def lookupRaceConfig : Config := ⟨some "qemu:///system", .byName, true, dotStar⟩

def lookupRaceConn : Connection := ⟨"QEMU", [vanishedDomain, survivorDomain]⟩

/-- C3 (code bug): the design document requires a failed per-domain
lookup to be recoverable and domain-scoped (skip that domain's facts,
continue with the rest), but the code wraps no handler around
`connection.lookupByName(...).interfaceAddresses(...)`, so the error
propagates out of `parse`.  With the first listed domain vanished, the
whole pass returns the lookup error: the second domain is never
processed and no inventory at all is produced. -/
theorem lookup_failure_aborts_pass :
    parse lookupRaceConfig (some lookupRaceConn) = .error .lookupError := by
  rfl

/- ## Claim C6 -/

/-- The raw interface map of the worked example in the design document:
eth0 has one address, eth1 has no `addrs` key. -/
def exampleRawIfaces : List (String × IfaceInfo) :=
  [("eth0", ⟨"AA:BB", some [⟨"10.0.0.5"⟩]⟩), ("eth1", ⟨"CC:DD", none⟩)]

/-- C6: interface-fact extraction maps every interface of the raw map to
`{hwaddr, addrs}` with the raw `addrs` sequence copied verbatim and in
order when present and `[]` otherwise; on the worked example it yields
eth0 with its address list, eth1 with `[]`, and primary address
10.0.0.5. -/
theorem iface_extraction_spec :
    (∀ (useCP : Bool) (hn : String) (inv : Inventory) (raw : List (String × IfaceInfo)),
      (ifaceLoop useCP hn raw inv).1 = extractIfaceFacts raw)
    ∧ (ifaceLoop false "host" exampleRawIfaces Inventory.empty).1
        = [("eth0", ⟨"AA:BB", [⟨"10.0.0.5"⟩]⟩), ("eth1", ⟨"CC:DD", []⟩)]
    ∧ primaryAddress exampleRawIfaces = some "10.0.0.5" := by
  refine ⟨fun useCP hn inv raw => iface_loop_facts useCP hn raw inv, ?_, rfl⟩
  rfl

/- ## Claim C4 -/

/-- C4: with connection-plugin mode off, after the interface loop the
host's `ansible_host` equals its previous value when one was already
present (first-write-wins: it is never overwritten), and otherwise the
`addr` of the first entry of the first interface, in the raw map's
order, that has at least one address — or stays unset when no interface
has an address.  Running the loop a second time changes nothing
(idempotence). -/
theorem ansible_host_first_address_once (hn : String) (raw : List (String × IfaceInfo))
    (inv : Inventory) (hhost : invHasHost inv hn = true) :
    getVar (ifaceLoop false hn raw inv).2 hn "ansible_host"
      = (match getVar inv hn "ansible_host" with
         | some v => some v
         | none => Option.map Value.str (primaryAddress raw))
    ∧ getVar (ifaceLoop false hn raw (ifaceLoop false hn raw inv).2).2 hn "ansible_host"
      = getVar (ifaceLoop false hn raw inv).2 hn "ansible_host" := by
  have hhost2 : invHasHost (ifaceLoop false hn raw inv).2 hn = true := by
    unfold ifaceLoop
    rw [foldl_ifaceStep_invHasHost]
    exact hhost
  have h1 := ansible_host_after_loop hn raw [] inv hhost
  have h2 := ansible_host_after_loop hn raw [] (ifaceLoop false hn raw inv).2 hhost2
  constructor
  · exact h1
  · unfold ifaceLoop at h2 ⊢
    rw [h2]
    cases hg : getVar (List.foldl (ifaceStep false hn) ([], inv) raw).2 hn "ansible_host" with
    | some v => rfl
    | none =>
      rw [hg] at h1
      cases hgi : getVar inv hn "ansible_host" with
      | some v => rw [hgi] at h1; simp at h1
      | none =>
        rw [hgi] at h1
        exact h1.symm

/-- A one-host inventory and a raw map with one addressed interface, to
instantiate C4. -/
def addrWitnessInv : Inventory := ⟨[("h", [])], []⟩

def addrWitnessRaw : List (String × IfaceInfo) :=
  [("eth0", ⟨"AA:BB", some [⟨"10.0.0.5"⟩]⟩)]

theorem ansible_host_first_address_once_witness :
    invHasHost addrWitnessInv "h" = true
    ∧ getVar (ifaceLoop false "h" addrWitnessRaw addrWitnessInv).2 "h" "ansible_host"
        = some (.str "10.0.0.5") :=
  ⟨rfl, (ansible_host_first_address_once "h" addrWitnessRaw addrWitnessInv rfl).1.trans rfl⟩

/- ## Lemmas about one domain's processing -/

theorem getVar_hostGroupBase (inv : Inventory) (hn al h k : String) :
    getVar (addChild (addGroup (addHost inv hn) al) al hn) h k = getVar inv h k := by
  rw [getVar_addChild, getVar_addGroup, getVar_addHost]

theorem invHasHost_hostGroupBase (inv : Inventory) (hn al : String) :
    invHasHost (addChild (addGroup (addHost inv hn) al) al hn) hn = true := by
  rw [invHasHost_addChild, invHasHost_addGroup]
  exact invHasHost_addHost_self _ _

theorem getVar_ifaceLoop_ne (useCP : Bool) (hn : String) (raw : List (String × IfaceInfo))
    (inv : Inventory) (h k : String) (hk : k ≠ "ansible_host") :
    getVar (ifaceLoop useCP hn raw inv).2 h k = getVar inv h k := by
  unfold ifaceLoop
  rw [foldl_ifaceStep_getVar_ne _ _ _ _ _ hk]

theorem invHasHost_ifaceLoop (useCP : Bool) (hn : String) (raw : List (String × IfaceInfo))
    (inv : Inventory) (h : String) :
    invHasHost (ifaceLoop useCP hn raw inv).2 h = invHasHost inv h := by
  unfold ifaceLoop
  rw [foldl_ifaceStep_invHasHost]

theorem groups_ifaceLoop (useCP : Bool) (hn : String) (raw : List (String × IfaceInfo))
    (inv : Inventory) :
    (ifaceLoop useCP hn raw inv).2.groups = inv.groups := by
  unfold ifaceLoop
  rw [foldl_ifaceStep_groups]

theorem ifaceLoop_true_snd (hn : String) (raw : List (String × IfaceInfo))
    (inv : Inventory) :
    (ifaceLoop true hn raw inv).2 = inv := by
  unfold ifaceLoop
  rw [foldl_ifaceStep_true_snd]

theorem processDomain_skip (policy : NamingPolicy) (pat : Regex) (useCP : Bool)
    (uri : String) (cp : Option (Option String)) (inv : Inventory) (d : Domain)
    (hm : domainMatchesFilter policy pat d = false) :
    processDomain policy pat useCP uri cp inv d = .ok inv := by
  simp [processDomain, hm]

/- ## Claim C5 -/

/-- C5: exactly one of the two variable sets is written, decided by the
`use_connection_plugin` flag and the driver kind.  With the flag on,
`ansible_host` is never written (it keeps its previous value); a bound
plugin name yields `ansible_libvirt_uri` = the configured uri and
`ansible_connection` = the mapped plugin name; an unrecognized driver
kind (the binding holds `None`) writes none of the three.  With the flag
off, `ansible_libvirt_uri` and `ansible_connection` are never written. -/
theorem connection_plugin_variable_sets (policy : NamingPolicy) (pat : Regex)
    (uri : String) (cp : Option (Option String)) (inv inv' : Inventory) (d : Domain) :
    (processDomain policy pat true uri cp inv d = .ok inv' →
      getVar inv' (inventory_hostname policy d) "ansible_host"
        = getVar inv (inventory_hostname policy d) "ansible_host"
      ∧ (∀ pl, cp = some (some pl) → domainMatchesFilter policy pat d = true →
          getVar inv' (inventory_hostname policy d) "ansible_libvirt_uri" = some (.str uri)
          ∧ getVar inv' (inventory_hostname policy d) "ansible_connection" = some (.str pl))
      ∧ (cp = some none →
          getVar inv' (inventory_hostname policy d) "ansible_libvirt_uri"
            = getVar inv (inventory_hostname policy d) "ansible_libvirt_uri"
          ∧ getVar inv' (inventory_hostname policy d) "ansible_connection"
            = getVar inv (inventory_hostname policy d) "ansible_connection"))
    ∧ (processDomain policy pat false uri cp inv d = .ok inv' →
        getVar inv' (inventory_hostname policy d) "ansible_libvirt_uri"
          = getVar inv (inventory_hostname policy d) "ansible_libvirt_uri"
        ∧ getVar inv' (inventory_hostname policy d) "ansible_connection"
          = getVar inv (inventory_hostname policy d) "ansible_connection") := by
  have hneHI : ("ansible_host" : String) ≠ "ansible_libvirt_ifaces" := by decide
  have hneHC : ("ansible_host" : String) ≠ "ansible_connection" := by decide
  have hneHU : ("ansible_host" : String) ≠ "ansible_libvirt_uri" := by decide
  have hneUI : ("ansible_libvirt_uri" : String) ≠ "ansible_libvirt_ifaces" := by decide
  have hneUC : ("ansible_libvirt_uri" : String) ≠ "ansible_connection" := by decide
  have hneCI : ("ansible_connection" : String) ≠ "ansible_libvirt_ifaces" := by decide
  have hneUH : ("ansible_libvirt_uri" : String) ≠ "ansible_host" := by decide
  have hneCH : ("ansible_connection" : String) ≠ "ansible_host" := by decide
  constructor
  · intro hok
    by_cases hm : domainMatchesFilter policy pat d = true
    · cases hi : d.ifacesResult with
      | error u =>
        simp [processDomain, hm, hi] at hok
      | ok raw =>
        simp only [processDomain, hm, hi, if_true] at hok
        cases cp with
        | none => simp at hok
        | some cpv =>
          cases cpv with
          | none =>
            simp only [Except.ok.injEq] at hok
            subst hok
            refine ⟨?_, ?_, ?_⟩
            · rw [getVar_setVariable_ne_key _ _ _ _ _ _ hneHI,
                  ifaceLoop_true_snd, getVar_hostGroupBase]
            · intro pl hpl
              simp at hpl
            · intro hcp
              constructor
              · rw [getVar_setVariable_ne_key _ _ _ _ _ _ hneUI,
                    ifaceLoop_true_snd, getVar_hostGroupBase]
              · rw [getVar_setVariable_ne_key _ _ _ _ _ _ hneCI,
                    ifaceLoop_true_snd, getVar_hostGroupBase]
          | some pl =>
            simp only [Except.ok.injEq] at hok
            subst hok
            have hbase : invHasHost
                (ifaceLoop true (inventory_hostname policy d) raw
                  (addChild (addGroup (addHost inv (inventory_hostname policy d))
                    (inventory_hostname_alias policy d))
                    (inventory_hostname_alias policy d) (inventory_hostname policy d))).2
                (inventory_hostname policy d) = true := by
              rw [invHasHost_ifaceLoop]
              exact invHasHost_hostGroupBase _ _ _
            refine ⟨?_, ?_, ?_⟩
            · rw [getVar_setVariable_ne_key _ _ _ _ _ _ hneHI,
                  getVar_setVariable_ne_key _ _ _ _ _ _ hneHC,
                  getVar_setVariable_ne_key _ _ _ _ _ _ hneHU,
                  ifaceLoop_true_snd, getVar_hostGroupBase]
            · intro pl' hpl'
              intro hmm
              have hpl2 : pl = pl' := by
                simp at hpl'
                exact hpl'
              subst hpl2
              constructor
              · rw [getVar_setVariable_ne_key _ _ _ _ _ _ hneUI,
                    getVar_setVariable_ne_key _ _ _ _ _ _ hneUC]
                exact getVar_setVariable_self _ _ _ _ hbase
              · rw [getVar_setVariable_ne_key _ _ _ _ _ _ hneCI]
                exact getVar_setVariable_self _ _ _ _
                  (by rw [invHasHost_setVariable]; exact hbase)
            · intro hcp
              simp at hcp
    · have hm' : domainMatchesFilter policy pat d = false := by
        cases hmm : domainMatchesFilter policy pat d with
        | true => exact absurd hmm hm
        | false => rfl
      rw [processDomain_skip _ _ _ _ _ _ _ hm'] at hok
      simp only [Except.ok.injEq] at hok
      subst hok
      refine ⟨rfl, ?_, fun hcp => ⟨rfl, rfl⟩⟩
      intro pl hpl hmm
      exact absurd hmm hm
  · intro hok
    by_cases hm : domainMatchesFilter policy pat d = true
    · cases hi : d.ifacesResult with
      | error u =>
        simp [processDomain, hm, hi] at hok
      | ok raw =>
        simp only [processDomain, hm, hi, if_true, Bool.false_eq_true, reduceIte,
          Except.ok.injEq] at hok
        subst hok
        constructor
        · rw [getVar_setVariable_ne_key _ _ _ _ _ _ hneUI,
              getVar_ifaceLoop_ne _ _ _ _ _ _ hneUH, getVar_hostGroupBase]
        · rw [getVar_setVariable_ne_key _ _ _ _ _ _ hneCI,
              getVar_ifaceLoop_ne _ _ _ _ _ _ hneCH, getVar_hostGroupBase]
    · have hm' : domainMatchesFilter policy pat d = false := by
        cases hmm : domainMatchesFilter policy pat d with
        | true => exact absurd hmm hm
        | false => rfl
      rw [processDomain_skip _ _ _ _ _ _ _ hm'] at hok
      simp only [Except.ok.injEq] at hok
      subst hok
      exact ⟨rfl, rfl⟩

/-- A matched domain with no interfaces, to instantiate C5. -/
def pluginWitnessDomain : Domain := ⟨"web1", "u1", .ok []⟩

/-- The inventory produced for `pluginWitnessDomain` with the connection
plugin on and a QEMU driver. -/
def pluginWitnessInv : Inventory :=
  ⟨[("web1", [("ansible_libvirt_uri", .str "qemu:///system"),
              ("ansible_connection", .str "community.libvirt.libvirt_qemu"),
              ("ansible_libvirt_ifaces", .ifaceMap [])])],
   [("u1", ["web1"])]⟩

theorem connection_plugin_variable_sets_witness :
    getVar pluginWitnessInv "web1" "ansible_host"
      = getVar Inventory.empty "web1" "ansible_host"
    ∧ getVar pluginWitnessInv "web1" "ansible_libvirt_uri" = some (.str "qemu:///system")
    ∧ getVar pluginWitnessInv "web1" "ansible_connection"
      = some (.str "community.libvirt.libvirt_qemu") := by
  have h := (connection_plugin_variable_sets .byName dotStar "qemu:///system"
      (some (some "community.libvirt.libvirt_qemu")) Inventory.empty pluginWitnessInv
      pluginWitnessDomain).1 rfl
  exact ⟨h.1, (h.2.1 _ rfl rfl).1, (h.2.1 _ rfl rfl).2⟩

/- ## Claim C9 -/

/-- C9: every host added for a matching domain whose per-domain
processing completes receives `ansible_libvirt_ifaces`, on every code
path; with zero interfaces the value is the empty mapping. -/
theorem ifaces_var_always_set (policy : NamingPolicy) (pat : Regex) (useCP : Bool)
    (uri : String) (cp : Option (Option String)) (inv inv' : Inventory) (d : Domain)
    (hm : domainMatchesFilter policy pat d = true)
    (hok : processDomain policy pat useCP uri cp inv d = .ok inv') :
    hasVar inv' (inventory_hostname policy d) "ansible_libvirt_ifaces" = true
    ∧ (d.ifacesResult = .ok [] →
        getVar inv' (inventory_hostname policy d) "ansible_libvirt_ifaces"
          = some (.ifaceMap [])) := by
  cases hi : d.ifacesResult with
  | error u => simp [processDomain, hm, hi] at hok
  | ok raw =>
    cases useCP with
    | false =>
      simp only [processDomain, hm, hi, if_true, Bool.false_eq_true, reduceIte,
        Except.ok.injEq] at hok
      subst hok
      have hX : invHasHost
          (ifaceLoop false (inventory_hostname policy d) raw
            (addChild (addGroup (addHost inv (inventory_hostname policy d))
              (inventory_hostname_alias policy d))
              (inventory_hostname_alias policy d) (inventory_hostname policy d))).2
          (inventory_hostname policy d) = true := by
        rw [invHasHost_ifaceLoop]
        exact invHasHost_hostGroupBase _ _ _
      constructor
      · unfold hasVar
        rw [getVar_setVariable_self _ _ _ _ hX]
        rfl
      · intro hraw
        injection hraw with h2
        subst h2
        rw [getVar_setVariable_self _ _ _ _ hX]
        rfl
    | true =>
      simp only [processDomain, hm, hi, if_true] at hok
      cases cp with
      | none => simp at hok
      | some cpv =>
        cases cpv with
        | none =>
          simp only [Except.ok.injEq] at hok
          subst hok
          have hX : invHasHost
              (ifaceLoop true (inventory_hostname policy d) raw
                (addChild (addGroup (addHost inv (inventory_hostname policy d))
                  (inventory_hostname_alias policy d))
                  (inventory_hostname_alias policy d) (inventory_hostname policy d))).2
              (inventory_hostname policy d) = true := by
            rw [invHasHost_ifaceLoop]
            exact invHasHost_hostGroupBase _ _ _
          constructor
          · unfold hasVar
            rw [getVar_setVariable_self _ _ _ _ hX]
            rfl
          · intro hraw
            injection hraw with h2
            subst h2
            rw [getVar_setVariable_self _ _ _ _ hX]
            rfl
        | some pl =>
          simp only [Except.ok.injEq] at hok
          subst hok
          have hX : invHasHost
              (setVariable (setVariable
                (ifaceLoop true (inventory_hostname policy d) raw
                  (addChild (addGroup (addHost inv (inventory_hostname policy d))
                    (inventory_hostname_alias policy d))
                    (inventory_hostname_alias policy d) (inventory_hostname policy d))).2
                (inventory_hostname policy d) "ansible_libvirt_uri" (.str uri))
                (inventory_hostname policy d) "ansible_connection" (.str pl))
              (inventory_hostname policy d) = true := by
            rw [invHasHost_setVariable, invHasHost_setVariable, invHasHost_ifaceLoop]
            exact invHasHost_hostGroupBase _ _ _
          constructor
          · unfold hasVar
            rw [getVar_setVariable_self _ _ _ _ hX]
            rfl
          · intro hraw
            injection hraw with h2
            subst h2
            rw [getVar_setVariable_self _ _ _ _ hX]
            rfl

/-- A matched domain with zero interfaces, to instantiate C9. -/
def ifacesWitnessDomain : Domain := ⟨"web9", "u9", .ok []⟩

/-- The inventory produced for `ifacesWitnessDomain` with the connection
plugin off. -/
def ifacesWitnessInv : Inventory :=
  ⟨[("web9", [("ansible_libvirt_ifaces", .ifaceMap [])])], [("u9", ["web9"])]⟩

theorem ifaces_var_always_set_witness :
    hasVar ifacesWitnessInv "web9" "ansible_libvirt_ifaces" = true
    ∧ getVar ifacesWitnessInv "web9" "ansible_libvirt_ifaces" = some (.ifaceMap []) := by
  have h := ifaces_var_always_set .byName dotStar false "u" none Inventory.empty
      ifacesWitnessInv ifacesWitnessDomain rfl rfl
  exact ⟨h.1, h.2 rfl⟩

/- ## Claim C7 -/

theorem lookupGroup_append_absent (gs : List (String × List String)) (g : String)
    (ms : List String) (g' : String) :
    lookupGroup (gs ++ [(g, ms)]) g'
      = match lookupGroup gs g' with
        | some r => some r
        | none => if g = g' then some ms else none := by
  induction gs with
  | nil => simp [lookupGroup]
  | cons e rest ih =>
    by_cases hh : e.1 = g'
    · simp [lookupGroup, hh]
    · simp [lookupGroup, hh, ih]

theorem lookupGroup_addMember (gs : List (String × List String)) (g h : String) :
    lookupGroup (addMember gs g h) g
      = (lookupGroup gs g).map (fun ms => if h ∈ ms then ms else ms ++ [h]) := by
  induction gs with
  | nil => simp [addMember, lookupGroup]
  | cons e rest ih =>
    by_cases hh : e.1 = g
    · simp [addMember, hh, lookupGroup]
    · simp [addMember, hh, lookupGroup, ih]

theorem lookupGroup_addGroup_self (inv : Inventory) (g : String) :
    ∃ ms, lookupGroup (addGroup inv g).groups g = some ms := by
  unfold addGroup
  by_cases hp : (lookupGroup inv.groups g).isSome
  · match hl : lookupGroup inv.groups g with
    | some ms => exact ⟨ms, by simp [hp, hl]⟩
    | none => rw [hl] at hp; simp at hp
  · refine ⟨[], ?_⟩
    simp only [hp, if_false, Bool.false_eq_true, reduceIte]
    rw [lookupGroup_append_absent]
    match hl : lookupGroup inv.groups g with
    | some ms => rw [hl] at hp; simp at hp
    | none => simp

theorem groupMembers_addChild_addGroup (inv : Inventory) (g h : String) :
    ∃ ms, groupMembers (addChild (addGroup inv g) g h) g = some ms ∧ h ∈ ms := by
  unfold groupMembers addChild
  obtain ⟨ms, hms⟩ := lookupGroup_addGroup_self inv g
  rw [lookupGroup_addMember, hms]
  by_cases hmem : h ∈ ms
  · exact ⟨ms, by simp [hmem], hmem⟩
  · exact ⟨ms ++ [h], by simp [hmem], by simp⟩

theorem groupMembers_of_groups_eq (inv1 inv2 : Inventory) (g : String)
    (hg : inv1.groups = inv2.groups) :
    groupMembers inv1 g = groupMembers inv2 g := by
  unfold groupMembers
  rw [hg]

/-- The two listed domains of the worked example: web1 with uuid u1,
web2 with uuid u2, both with no interfaces. -/
def exampleDomains : List Domain := [⟨"web1", "u1", .ok []⟩, ⟨"web2", "u2", .ok []⟩]

def exampleConfig : Config := ⟨some "qemu:///system", .byName, false, dotStar⟩

def exampleConn : Connection := ⟨"QEMU", exampleDomains⟩

/-- C7: per domain, a host named by the primary key and a group named by
the alias key containing that host are added iff the domain matches the
filter; a non-matching domain leaves the inventory exactly unchanged (no
host, no group, no variable writes).  On the worked example (web1/u1,
web2/u2 under the name policy) the pass yields exactly hosts web1, web2
and groups u1, u2, each containing its respective host. -/
theorem filtered_domain_host_group :
    (∀ (policy : NamingPolicy) (pat : Regex) (useCP : Bool) (uri : String)
       (cp : Option (Option String)) (inv : Inventory) (d : Domain),
       domainMatchesFilter policy pat d = false →
       processDomain policy pat useCP uri cp inv d = .ok inv)
    ∧ (∀ (policy : NamingPolicy) (pat : Regex) (useCP : Bool) (uri : String)
         (cp : Option (Option String)) (inv inv' : Inventory) (d : Domain),
         domainMatchesFilter policy pat d = true →
         processDomain policy pat useCP uri cp inv d = .ok inv' →
         invHasHost inv' (inventory_hostname policy d) = true
         ∧ ∃ ms, groupMembers inv' (inventory_hostname_alias policy d) = some ms
             ∧ inventory_hostname policy d ∈ ms)
    ∧ parse exampleConfig (some exampleConn) = .ok
        ⟨[("web1", [("ansible_libvirt_ifaces", .ifaceMap [])]),
          ("web2", [("ansible_libvirt_ifaces", .ifaceMap [])])],
         [("u1", ["web1"]), ("u2", ["web2"])]⟩ := by
  refine ⟨fun policy pat useCP uri cp inv d hm => processDomain_skip _ _ _ _ _ _ _ hm,
    ?_, rfl⟩
  intro policy pat useCP uri cp inv inv' d hm hok
  obtain ⟨msb, hmsb, hhb⟩ := groupMembers_addChild_addGroup
    (addHost inv (inventory_hostname policy d)) (inventory_hostname_alias policy d)
    (inventory_hostname policy d)
  cases hi : d.ifacesResult with
  | error u => simp [processDomain, hm, hi] at hok
  | ok raw =>
    cases useCP with
    | false =>
      simp only [processDomain, hm, hi, if_true, Bool.false_eq_true, reduceIte,
        Except.ok.injEq] at hok
      subst hok
      constructor
      · rw [invHasHost_setVariable, invHasHost_ifaceLoop]
        exact invHasHost_hostGroupBase _ _ _
      · refine ⟨msb, ?_, hhb⟩
        rw [groupMembers_of_groups_eq _
          (addChild (addGroup (addHost inv (inventory_hostname policy d))
            (inventory_hostname_alias policy d))
            (inventory_hostname_alias policy d) (inventory_hostname policy d)) _ ?_]
        · exact hmsb
        · rw [groups_setVariable, groups_ifaceLoop]
    | true =>
      simp only [processDomain, hm, hi, if_true] at hok
      cases cp with
      | none => simp at hok
      | some cpv =>
        cases cpv with
        | none =>
          simp only [Except.ok.injEq] at hok
          subst hok
          constructor
          · rw [invHasHost_setVariable, invHasHost_ifaceLoop]
            exact invHasHost_hostGroupBase _ _ _
          · refine ⟨msb, ?_, hhb⟩
            rw [groupMembers_of_groups_eq _
              (addChild (addGroup (addHost inv (inventory_hostname policy d))
                (inventory_hostname_alias policy d))
                (inventory_hostname_alias policy d) (inventory_hostname policy d)) _ ?_]
            · exact hmsb
            · rw [groups_setVariable, groups_ifaceLoop]
        | some pl =>
          simp only [Except.ok.injEq] at hok
          subst hok
          constructor
          · rw [invHasHost_setVariable, invHasHost_setVariable, invHasHost_setVariable,
              invHasHost_ifaceLoop]
            exact invHasHost_hostGroupBase _ _ _
          · refine ⟨msb, ?_, hhb⟩
            rw [groupMembers_of_groups_eq _
              (addChild (addGroup (addHost inv (inventory_hostname policy d))
                (inventory_hostname_alias policy d))
                (inventory_hostname_alias policy d) (inventory_hostname policy d)) _ ?_]
            · exact hmsb
            · rw [groups_setVariable, groups_setVariable, groups_setVariable,
                groups_ifaceLoop]

/-- The inventory produced by processing web1 alone, to instantiate C7's
positive branch. -/
def exampleSingleInv : Inventory :=
  ⟨[("web1", [("ansible_libvirt_ifaces", .ifaceMap [])])], [("u1", ["web1"])]⟩

theorem filtered_domain_host_group_witness :
    processDomain .byName (.chr 'z') false "u" none Inventory.empty
      ⟨"web1", "u1", .ok []⟩ = .ok Inventory.empty
    ∧ invHasHost exampleSingleInv "web1" = true := by
  constructor
  · exact filtered_domain_host_group.1 .byName (.chr 'z') false "u" none
      Inventory.empty ⟨"web1", "u1", .ok []⟩ (by decide)
  · exact (filtered_domain_host_group.2.1 .byName dotStar false "u" none
      Inventory.empty exampleSingleInv ⟨"web1", "u1", .ok []⟩ rfl rfl).1

/- ## Claim C8 -/

/-- C8: a missing (or empty) `uri` option aborts the pass with the
configuration error regardless of the connection, i.e. before any
connection attempt; a null connection handle aborts it with the
connection error.  In both cases `parse` returns an error and no
inventory: nothing has been committed. -/
theorem fatal_config_and_connection_errors (cfg : Config) (conn : Option Connection) :
    ((cfg.uri = none ∨ cfg.uri = some "") → parse cfg conn = .error .configError)
    ∧ (∀ u, cfg.uri = some u → u ≠ "" → conn = none → parse cfg conn = .error .connError)
    ∧ (∀ e, parse cfg conn = .error e → ∀ inv, parse cfg conn ≠ .ok inv) := by
  refine ⟨?_, ?_, ?_⟩
  · rintro (h | h) <;> simp [parse, h]
  · intro u hu hne hc
    simp [parse, hu, hne, hc]
  · intro e he inv hok
    rw [he] at hok
    cases hok

theorem fatal_config_and_connection_errors_witness :
    parse ⟨none, .byName, true, dotStar⟩ none = .error .configError
    ∧ parse ⟨some "qemu:///system", .byName, true, dotStar⟩ none = .error .connError := by
  constructor
  · exact (fatal_config_and_connection_errors _ _).1 (Or.inl rfl)
  · exact (fatal_config_and_connection_errors _ _).2.1 "qemu:///system" rfl (by decide) rfl

/- ## Claim C10 -/

theorem processDomain_ne_nameError (policy : NamingPolicy) (pat : Regex) (useCP : Bool)
    (uri : String) (cp : Option (Option String)) (inv : Inventory) (d : Domain)
    (hcp : useCP = true → cp ≠ none) :
    processDomain policy pat useCP uri cp inv d ≠ .error .nameError := by
  by_cases hm : domainMatchesFilter policy pat d = true
  · cases hi : d.ifacesResult with
    | error u => simp [processDomain, hm, hi]
    | ok raw =>
      cases useCP with
      | false => simp [processDomain, hm, hi]
      | true =>
        cases cp with
        | none => exact absurd rfl (hcp rfl)
        | some cpv =>
          cases cpv with
          | none => simp [processDomain, hm, hi]
          | some pl => simp [processDomain, hm, hi]
  · have hm' : domainMatchesFilter policy pat d = false := by
      cases hmm : domainMatchesFilter policy pat d with
      | true => exact absurd hmm hm
      | false => rfl
    rw [processDomain_skip _ _ _ _ _ _ _ hm']
    intro h
    cases h

theorem foldlM_processDomain_ne_nameError (policy : NamingPolicy) (pat : Regex)
    (useCP : Bool) (uri : String) (cp : Option (Option String))
    (hcp : useCP = true → cp ≠ none) (ds : List Domain) :
    ∀ inv : Inventory,
    List.foldlM (processDomain policy pat useCP uri cp) inv ds ≠ .error .nameError := by
  induction ds with
  | nil =>
    intro inv h
    cases h
  | cons d rest ih =>
    intro inv h
    rw [List.foldlM_cons] at h
    cases hd : processDomain policy pat useCP uri cp inv d with
    | error e =>
      rw [hd] at h
      have hred : (Except.error e >>= fun inv' =>
          List.foldlM (processDomain policy pat useCP uri cp) inv' rest)
          = (Except.error e : Except ParseErr Inventory) := rfl
      rw [hred] at h
      injection h with h2
      subst h2
      exact processDomain_ne_nameError policy pat useCP uri cp inv d hcp hd
    | ok inv2 =>
      rw [hd] at h
      have hred : (Except.ok inv2 >>= fun inv' =>
          List.foldlM (processDomain policy pat useCP uri cp) inv' rest)
          = List.foldlM (processDomain policy pat useCP uri cp) inv2 rest := rfl
      rw [hred] at h
      exact ih inv2 h

/-- C10: the local `connection_plugin` binding is assigned exactly when
`use_connection_plugin` is true, and its only read is guarded by the
same flag, so no execution of the pass can fail with an unbound-name
(`NameError`) read of that binding. -/
theorem connection_plugin_binding_safe (cfg : Config) (conn : Option Connection) :
    parse cfg conn ≠ .error .nameError := by
  unfold parse
  cases hu : cfg.uri with
  | none =>
    intro h
    cases h
  | some u =>
    by_cases hne : u = ""
    · subst hne
      intro h
      simp at h
    · cases conn with
      | none =>
        simp only [hne, if_false, Bool.false_eq_true, reduceIte]
        intro h
        simp at h
      | some c =>
        simp only [hne, if_false, Bool.false_eq_true, reduceIte]
        exact foldlM_processDomain_ne_nameError cfg.inventoryHostname cfg.filter
          cfg.useConnectionPlugin u
          (if cfg.useConnectionPlugin then some (connectionPluginMap c.driverType) else none)
          (fun hf => by rw [hf]; simp) c.domains Inventory.empty

end LibvirtInv
